import Mathlib

/-!
Verification development for the InvokeAI database maintenance tools
(reindex tool `Restore_Images_DB_v2.1.py` and the two board
reclassification tools `Convert_Board_to_Assets_v1.0.py` and
`Convert_Assets_to_Board_v1.0.py`).

The Python scripts are shallowly embedded: SQLite tables become lists of
rows, the filesystem becomes a list of paths, and each script function
becomes a Lean function of the same name.  Exceptions become `Except` /
`Option` results, and the per-file failure possibilities of the
reconciliation driver (unreadable image, failed INSERT, failed link,
failed thumbnail generation) are represented by boolean oracle flags on
the file record, standing for whether the corresponding real-world I/O
operation would raise.
-/

/-! ### Timestamps

`datetime` values are modelled by their seven components.  Python's
`datetime.strptime` is modelled faithfully for the three format strings
used by `detect_created_at`, including CPython's regex-based field
widths (`%Y` is exactly four digits, `%m`/`%d`/`%H`/`%M`/`%S` are one or
two digits with the ranges of CPython's `_strptime` patterns, `%f` is
one to six digits, `%z` is an offset or a literal `Z`), the
case-insensitive matching of literal characters, whitespace in the
format matching one or more whitespace characters, and the validation
performed by the `datetime` constructor (month lengths, leap years,
seconds below 60, timezone offsets below 24 hours). -/

structure DateTime where
  year : Nat
  month : Nat
  day : Nat
  hour : Nat
  minute : Nat
  second : Nat
  micro : Nat
deriving DecidableEq

def isLeap (y : Nat) : Bool :=
  y % 4 == 0 && (y % 100 != 0 || y % 400 == 0)

def daysInMonth (y m : Nat) : Nat :=
  if m = 2 then (if isLeap y then 29 else 28)
  else if m = 4 ∨ m = 6 ∨ m = 9 ∨ m = 11 then 30
  else 31

/-- Validation performed by the `datetime` constructor: `strptime` raises
(and the caller's `except` treats the format as failed) when the fields do
not form a valid date-time. -/
def mkDT (y mo d h mi s mic : Nat) : Option DateTime :=
  if 1 ≤ y ∧ y ≤ 9999 ∧ 1 ≤ mo ∧ mo ≤ 12 ∧ 1 ≤ d ∧ d ≤ daysInMonth y mo
      ∧ h ≤ 23 ∧ mi ≤ 59 ∧ s ≤ 59 ∧ mic ≤ 999999 then
    some ⟨y, mo, d, h, mi, s, mic⟩
  else none

def digitVal (c : Char) : Nat := c.toNat - 48

/-- `%Y`: exactly four digits (CPython pattern `\d\d\d\d`). -/
def pYear4 : List Char → Option (Nat × List Char)
  | a :: b :: c :: d :: r =>
    if a.isDigit && b.isDigit && c.isDigit && d.isDigit then
      some (digitVal a * 1000 + digitVal b * 100 + digitVal c * 10 + digitVal d, r)
    else none
  | _ => none

/-- One- or two-digit numeric field with an ordered-alternation range, as
in CPython's `_strptime` regexes: a two-digit match is preferred when its
value is admissible, otherwise a single digit is taken. -/
def pNum2 (twoOk oneOk : Nat → Bool) : List Char → Option (Nat × List Char)
  | c1 :: c2 :: r =>
    if c1.isDigit && c2.isDigit && twoOk (digitVal c1 * 10 + digitVal c2) then
      some (digitVal c1 * 10 + digitVal c2, r)
    else if c1.isDigit && oneOk (digitVal c1) then
      some (digitVal c1, c2 :: r)
    else none
  | [c1] =>
    if c1.isDigit && oneOk (digitVal c1) then some (digitVal c1, []) else none
  | [] => none

def pMonth : List Char → Option (Nat × List Char) :=
  pNum2 (fun v => decide (1 ≤ v ∧ v ≤ 12)) (fun v => decide (1 ≤ v ∧ v ≤ 9))

def pDay : List Char → Option (Nat × List Char) :=
  pNum2 (fun v => decide (1 ≤ v ∧ v ≤ 31)) (fun v => decide (1 ≤ v ∧ v ≤ 9))

def pHour : List Char → Option (Nat × List Char) :=
  pNum2 (fun v => decide (v ≤ 23)) (fun v => decide (v ≤ 9))

def pMin : List Char → Option (Nat × List Char) :=
  pNum2 (fun v => decide (v ≤ 59)) (fun v => decide (v ≤ 9))

/-- `%S` admits 60 and 61 in the regex; the `datetime` constructor then
rejects them (see `mkDT`). -/
def pSec : List Char → Option (Nat × List Char) :=
  pNum2 (fun v => decide (v ≤ 61)) (fun v => decide (v ≤ 9))

/-- Literal format character; CPython compiles the format with
`re.IGNORECASE`, so literals match case-insensitively. -/
def pLit (c : Char) : List Char → Option (List Char)
  | x :: r => if x.toLower = c.toLower then some r else none
  | [] => none

def takeDigitsUpTo : Nat → List Char → (List Nat × List Char)
  | 0, l => ([], l)
  | _ + 1, [] => ([], [])
  | n + 1, c :: r =>
    if c.isDigit then
      let p := takeDigitsUpTo n r
      (digitVal c :: p.1, p.2)
    else ([], c :: r)

def digitsVal (ds : List Nat) : Nat := ds.foldl (fun a d => a * 10 + d) 0

/-- `%f`: one to six digits, right-padded to microseconds. -/
def pFrac (l : List Char) : Option (Nat × List Char) :=
  let p := takeDigitsUpTo 6 l
  if p.1.isEmpty then none
  else some (digitsVal p.1 * 10 ^ (6 - p.1.length), p.2)

def pTwoDigits : List Char → Option (Nat × List Char)
  | a :: b :: r =>
    if a.isDigit && b.isDigit then some (digitVal a * 10 + digitVal b, r) else none
  | _ => none

def pTwo59 : List Char → Option (Nat × List Char)
  | a :: b :: r =>
    if a.isDigit && b.isDigit && decide (digitVal a ≤ 5) then
      some (digitVal a * 10 + digitVal b, r)
    else none
  | _ => none

def pOptColon : List Char → List Char
  | ':' :: r => r
  | l => l

/-- Optional fractional seconds of a `%z` offset. -/
def pZfrac (l : List Char) : List Char :=
  match l with
  | '.' :: r =>
    let p := takeDigitsUpTo 6 r
    if p.1.isEmpty then l else p.2
  | _ => l

/-- Optional seconds group of a `%z` offset. -/
def pZsec (l : List Char) : List Char :=
  match pTwo59 (pOptColon l) with
  | some (_, r) => pZfrac r
  | none => l

/-- `%z`: CPython pattern `[+-]\d\d:?[0-5]\d(:?[0-5]\d(\.\d{1,6})?)?` or a
literal uppercase `Z`; an hour component of 24 or more makes the
`timezone` constructor raise, failing the format. -/
def pZ (l : List Char) : Option (List Char) :=
  match l with
  | 'Z' :: r => some r
  | c :: r =>
    if c = '+' ∨ c = '-' then
      match pTwoDigits r with
      | some (hh, r1) =>
        match pTwo59 (pOptColon r1) with
        | some (_, r3) => if hh ≤ 23 then some (pZsec r3) else none
        | none => none
      | none => none
    else none
  | [] => none

def isWsChar (c : Char) : Bool :=
  c = ' ' || c = '\t' || c = '\n' || c = '\r' || c = '\x0b' || c = '\x0c'

/-- Whitespace in a format string matches one or more whitespace
characters (CPython substitutes a whitespace-plus pattern). -/
def pWs1 (l : List Char) : Option (List Char) :=
  match l with
  | c :: r => if isWsChar c then some (r.dropWhile isWsChar) else none
  | [] => none

/-- `strptime` with format `%Y-%m-%dT%H:%M:%S.%fZ` (whole string must be
consumed). -/
def parseFmt1 (s : String) : Option DateTime := do
  let (y, r1) ← pYear4 s.data
  let r2 ← pLit '-' r1
  let (mo, r3) ← pMonth r2
  let r4 ← pLit '-' r3
  let (d, r5) ← pDay r4
  let r6 ← pLit 'T' r5
  let (h, r7) ← pHour r6
  let r8 ← pLit ':' r7
  let (mi, r9) ← pMin r8
  let r10 ← pLit ':' r9
  let (sec, r11) ← pSec r10
  let r12 ← pLit '.' r11
  let (mic, r13) ← pFrac r12
  let r14 ← pLit 'Z' r13
  if r14.isEmpty then mkDT y mo d h mi sec mic else none

/-- `strptime` with format `%Y-%m-%dT%H:%M:%S%z`. -/
def parseFmt2 (s : String) : Option DateTime := do
  let (y, r1) ← pYear4 s.data
  let r2 ← pLit '-' r1
  let (mo, r3) ← pMonth r2
  let r4 ← pLit '-' r3
  let (d, r5) ← pDay r4
  let r6 ← pLit 'T' r5
  let (h, r7) ← pHour r6
  let r8 ← pLit ':' r7
  let (mi, r9) ← pMin r8
  let r10 ← pLit ':' r9
  let (sec, r11) ← pSec r10
  let r12 ← pZ r11
  if r12.isEmpty then mkDT y mo d h mi sec 0 else none

/-- `strptime` with format `%Y-%m-%d %H:%M:%S`. -/
def parseFmt3 (s : String) : Option DateTime := do
  let (y, r1) ← pYear4 s.data
  let r2 ← pLit '-' r1
  let (mo, r3) ← pMonth r2
  let r4 ← pLit '-' r3
  let (d, r5) ← pDay r4
  let r6 ← pWs1 r5
  let (h, r7) ← pHour r6
  let r8 ← pLit ':' r7
  let (mi, r9) ← pMin r8
  let r10 ← pLit ':' r9
  let (sec, r11) ← pSec r10
  if r11.isEmpty then mkDT y mo d h mi sec 0 else none

/-- The inner loop of `detect_created_at`: the three formats are tried in
their written order, stopping at the first success. -/
def tryFormats (s : String) : Option DateTime :=
  match parseFmt1 s with
  | some d => some d
  | none =>
    match parseFmt2 s with
    | some d => some d
    | none => parseFmt3 s

/-- A parsed JSON value as far as `detect_created_at` inspects it:
`isinstance(val, str)` only distinguishes strings. -/
inductive PJson where
  | str (s : String)
  | other
deriving DecidableEq

/-- Dictionary lookup (`meta_json.get(key)`); keys of a Python dict are
unique, so the first binding wins. -/
def jget (m : List (String × PJson)) (k : String) : Option PJson :=
  (m.find? (fun kv => decide (kv.1 = k))).map (fun kv => kv.2)

/-- The candidate metadata keys, in the order written in the source. -/
def createdKeys : List String := ["created", "created_at", "timestamp", "time"]

/-- The outer loop of `detect_created_at`: keys are searched in order; a
key whose value is not a string, is absent, or fails every format leaves
`dt` unset and the search continues. -/
def findDt : List String → List (String × PJson) → Option DateTime
  | [], _ => none
  | k :: ks, m =>
    match jget m k with
    | some (PJson.str s) =>
      match tryFormats s with
      | some d => some d
      | none => findDt ks m
    | _ => findDt ks m

def padNat (w n : Nat) : String :=
  let s := Nat.repr n
  String.mk (List.replicate (w - s.length) '0') ++ s

/-- `dt.strftime("%Y-%m-%d %H:%M:%S.%f")`. -/
def fmtTimestamp (d : DateTime) : String :=
  padNat 4 d.year ++ "-" ++ padNat 2 d.month ++ "-" ++ padNat 2 d.day ++ " "
    ++ padNat 2 d.hour ++ ":" ++ padNat 2 d.minute ++ ":" ++ padNat 2 d.second
    ++ "." ++ padNat 6 d.micro

/-- `detect_created_at(meta_json, path)`.  The file's modification time
(`datetime.fromtimestamp(path.stat().st_mtime)`) is passed as an explicit
`DateTime` value.  An absent metadata dict, like an empty one, is falsy
in Python and skips the key search entirely. -/
def detect_created_at (meta : Option (List (String × PJson))) (mtime : DateTime) : String :=
  let dt :=
    match meta with
    | some m => if m.isEmpty then none else findDt createdKeys m
    | none => none
  match dt with
  | some d => fmtTimestamp d
  | none => fmtTimestamp mtime


/-! ### Paths and thumbnail derivation

Filesystem paths are modelled as lists of components (the `parts` of a
`pathlib` path).  `Path.relative_to` succeeds exactly when the root's
components are a prefix of the path's components, which holds for every
path the reindex tool derives (they are produced by joining the root with
relative components). -/

/-- `pathlib.PurePath.stem`: the final component without its last
suffix; a suffix exists when the last dot is neither the first nor the
last character of the name. -/
def pyStem (s : String) : String :=
  let l := s.data
  match (l.reverse.findIdx? (fun c => decide (c = '.'))).map (fun j => l.length - 1 - j) with
  | some i => if 0 < i ∧ i < l.length - 1 then String.mk (l.take i) else s
  | none => s

/-- Exceptions of the thumbnail pipeline: `ValueError` from
`relative_to`, `IndexError` from `parts[-1]` on an empty relative path,
and any exception raised by the Pillow open/convert/resize/save calls. -/
inductive Err where
  | valueError
  | indexError
  | imageError
deriving DecidableEq

/-- `parts[-1] = Path(parts[-1]).stem + ".webp"` on a component list;
fails (IndexError) on the empty list. -/
def setLastWebp : List String → Option (List String)
  | [] => none
  | [x] => some [pyStem x ++ ".webp"]
  | x :: y :: rest => (setLastWebp (y :: rest)).map (fun l => x :: l)

/-- `parts.insert(1, "thumbnails")` guarded by
`parts and parts[0] == "images"`. -/
def insertThumbs : List String → List String
  | [] => []
  | p0 :: rest => if p0 = "images" then p0 :: "thumbnails" :: rest else p0 :: rest

/-- `get_thumbnail_path(outputs_root, image_path)`: relativize, insert
`"thumbnails"` after the first component when that component is
`"images"`, and force the `.webp` extension. -/
def get_thumbnail_path (outputs_root image_path : List String) : Except Err (List String) :=
  if outputs_root.isPrefixOf image_path then
    let rel := image_path.drop outputs_root.length
    match setLastWebp (insertThumbs rel) with
    | some ps => Except.ok (outputs_root ++ ps)
    | none => Except.error Err.indexError
  else Except.error Err.valueError

/-- Actions at the granularity reported by the scripts' log lines: an
image-row INSERT, a board-row INSERT, a membership INSERT, and a
thumbnail file creation (directory creation included). -/
inductive Act where
  | insertImage (name : String)
  | createBoard (name : String)
  | linkImage (name : String)
  | createThumb (path : List String)
deriving DecidableEq

/-- `ensure_thumbnail(outputs_root, image_path, dry_run, verbose, img)`
over a filesystem modelled as the list of existing file paths.  `fail`
is the oracle for an exception out of the Pillow open/convert/resize/
save calls (reachable only after the existence and dry-run early
returns).  Returns the new filesystem and the actions performed (real
run) or announced (dry run, printed only when verbose). -/
def ensure_thumbnail (outputs_root image_path : List String) (dry_run verbose : Bool)
    (fs : List (List String)) (fail : Bool) :
    Except Err (List (List String) × List Act) :=
  match get_thumbnail_path outputs_root image_path with
  | Except.error e => Except.error e
  | Except.ok tp =>
    if tp ∈ fs then Except.ok (fs, [])
    else if dry_run then
      Except.ok (fs, if verbose then [Act.createThumb tp] else [])
    else if fail then Except.error Err.imageError
    else Except.ok (tp :: fs, [Act.createThumb tp])

/-! ### The reindex tool's database and driver -/

/-- A row of the `images` table, with the columns the reindex tool's
INSERT statement provides. -/
structure RImage where
  image_name : String
  image_origin : String
  image_category : String
  width : Nat
  height : Nat
  metadata : Option String
  is_intermediate : Nat
  created_at : String
  updated_at : String
  has_workflow : Nat
deriving DecidableEq

/-- The three tables the tools touch.  `boards` rows are
`(board_id, board_name)` pairs; `board_images` rows are
`(board_id, image_name)` pairs. -/
structure RDB where
  images : List RImage
  boards : List (String × String)
  board_images : List (String × String)
deriving DecidableEq

/-- `image_exists(conn, image_name)`: `SELECT 1 FROM images WHERE
image_name = ?`. -/
def image_exists (db : RDB) (image_name : String) : Bool :=
  db.images.any (fun r => decide (r.image_name = image_name))

/-- A PNG file under the image root, described by what the tool reads
from it.  `relParts` is its path relative to `outputs/images`; the
remaining data fields are the outputs of `load_png_metadata` and
`path.stat`.  The four boolean flags are the oracle for whether the
corresponding real-world operation raises for this file: opening the
image (`load_png_metadata`), the catalog INSERT (`insert_image`), the
membership INSERT (`add_to_board`), and thumbnail generation
(`ensure_thumbnail`'s Pillow calls). -/
structure PngFile where
  relParts : List String
  width : Nat
  height : Nat
  metaRaw : Option String
  metaJson : Option (List (String × PJson))
  hasGraph : Bool
  mtime : DateTime
  loadFails : Bool
  insertFails : Bool
  linkFails : Bool
  thumbFails : Bool
deriving DecidableEq

/-- `image_name = str(path.relative_to(images_root))`. -/
def imageNameOf (f : PngFile) : String :=
  String.intercalate "/" f.relParts

/-- The absolute path of the file: `outputs_root / "images" / relParts`. -/
def imgAbsPath (root : List String) (f : PngFile) : List String :=
  root ++ "images" :: f.relParts

/-- Run configuration: the `--dry-run`, `--verbose` and `--gen-thumbs`
flags. -/
structure Config where
  dry : Bool
  verbose : Bool
  genThumbs : Bool
deriving DecidableEq

/-- The driver's evolving state: the database, the filesystem (existing
file paths), the actions a dry run has announced, and the mutations a
real run has performed. -/
structure RunState where
  db : RDB
  fs : List (List String)
  reported : List Act
  mutated : List Act
deriving DecidableEq

/-- The row built by `insert_image`: category `general`, origin
`internal`, `is_intermediate = 0`, `created_at = updated_at`. -/
def buildRow (f : PngFile) (name created : String) : RImage :=
  ⟨name, "internal", "general", f.width, f.height, f.metaRaw, 0, created, created,
    if f.hasGraph then 1 else 0⟩

/-- `insert_image`: in a dry run, print the would-be INSERT
(unconditionally) and return; otherwise INSERT and commit. -/
def insert_image (cfg : Config) (name : String) (row : RImage) (st : RunState) : RunState :=
  if cfg.dry then
    { st with reported := st.reported ++ [Act.insertImage name] }
  else
    { st with db := { st.db with images := st.db.images ++ [row] },
              mutated := st.mutated ++ [Act.insertImage name] }

/-- `add_to_board`: in a dry run, print the would-be link only when
verbose; otherwise `INSERT OR IGNORE` the membership pair. -/
def add_to_board (cfg : Config) (board_id name : String) (st : RunState) : RunState :=
  if cfg.dry then
    { st with reported := st.reported ++ (if cfg.verbose then [Act.linkImage name] else []) }
  else if (board_id, name) ∈ st.db.board_images then st
  else
    { st with db := { st.db with board_images := st.db.board_images ++ [(board_id, name)] },
              mutated := st.mutated ++ [Act.linkImage name] }

/-- `ensure_import_board`: reuse a board of the same name if one exists
(first row returned by the SELECT); otherwise take a fresh UUID
(`newId`, supplied by the environment) and, unless dry, INSERT the new
board.  The would-be creation is printed only when verbose. -/
def ensure_import_board (cfg : Config) (board_name newId : String) (st : RunState) :
    String × RunState :=
  match st.db.boards.find? (fun b => decide (b.2 = board_name)) with
  | some b => (b.1, st)
  | none =>
    if cfg.dry then
      (newId,
        { st with reported :=
            st.reported ++ (if cfg.verbose then [Act.createBoard board_name] else []) })
    else
      (newId,
        { st with db := { st.db with boards := st.db.boards ++ [(newId, board_name)] },
                  mutated := st.mutated ++ [Act.createBoard board_name] })

/-- Route the result of `ensure_thumbnail` into the run state: dry-run
prints are reports, real-run effects are mutations. -/
def applyThumb (cfg : Config) (st : RunState) (fs' : List (List String))
    (acts : List Act) : RunState :=
  if cfg.dry then { st with fs := fs', reported := st.reported ++ acts }
  else { st with fs := fs', mutated := st.mutated ++ acts }

/-- The per-file body of the driver loop in `main`.  The skip on an
existing row happens first; a `load_png_metadata` exception is caught
and logged; an exception inside the `insert_image`/`add_to_board` try
block is caught and logged (a failed link still keeps the committed
image row); an exception out of `ensure_thumbnail` is NOT inside any
try block and propagates, aborting the run. -/
def processFile (cfg : Config) (root : List String) (board_id : String)
    (st : RunState) (f : PngFile) : Except Err RunState :=
  let nm := imageNameOf f
  if image_exists st.db nm then Except.ok st
  else if f.loadFails then Except.ok st
  else
    let created := detect_created_at f.metaJson f.mtime
    if !cfg.dry && f.insertFails then Except.ok st
    else
      let st1 := insert_image cfg nm (buildRow f nm created) st
      if !cfg.dry && f.linkFails then Except.ok st1
      else
        let st2 := add_to_board cfg board_id nm st1
        if cfg.genThumbs then
          match ensure_thumbnail root (imgAbsPath root f) cfg.dry cfg.verbose st2.fs f.thumbFails with
          | Except.error e => Except.error e
          | Except.ok (fs', acts) => Except.ok (applyThumb cfg st2 fs' acts)
        else Except.ok st2

/-- The driver loop over the sorted file list. -/
def processFiles (cfg : Config) (root : List String) (board_id : String) :
    List PngFile → RunState → Except Err RunState
  | [], st => Except.ok st
  | f :: rest, st =>
    match processFile cfg root board_id st f with
    | Except.error e => Except.error e
    | Except.ok st' => processFiles cfg root board_id rest st'

/-- `main` of the reindex tool: ensure the dated import board, then
process every PNG file found under `outputs/images` (thumbnails
excluded), in sorted order.  `board_name` is the dated name
`Recovered DD-MM-YY` and `newId` the freshly generated UUID, both
supplied by the environment. -/
def runReconcile (cfg : Config) (root : List String) (board_name newId : String)
    (files : List PngFile) (db : RDB) (fs : List (List String)) : Except Err RunState :=
  let p := ensure_import_board cfg board_name newId ⟨db, fs, [], []⟩
  processFiles cfg root p.1 files p.2


/-! ### The reclassification tools

`Convert_Board_to_Assets_v1.0.py` and `Convert_Assets_to_Board_v1.0.py`
are identical up to the two target values and the wording of their
messages, and both carry a `get_board_id_by_name` /
`get_images_for_board` pair with the same SQL, so those two helpers are
modelled once.  A row of the `images` table is modelled with the columns
the scripts' docstrings name (category, origin, the untouched
`is_intermediate`, `created_at`, `updated_at`, `deleted_at`) plus the
remaining reindex columns. -/

structure CImage where
  image_name : String
  image_origin : String
  image_category : String
  width : Nat
  height : Nat
  metadata : Option String
  is_intermediate : Nat
  created_at : String
  updated_at : String
  deleted_at : Option String
  has_workflow : Nat
deriving DecidableEq

structure CDB where
  images : List CImage
  boards : List (String × String)
  board_images : List (String × String)
deriving DecidableEq

/-- SQLite's `LOWER`, which folds ASCII letters only (byte-wise on the
UTF-8 encoding, hence character-wise `Char.toLower`, which also folds
only the ASCII range). -/
def sqlLower (s : String) : String := String.mk (s.data.map Char.toLower)

/-- `get_board_id_by_name`: `SELECT board_id FROM boards WHERE
LOWER(board_name) = LOWER(?)`, `fetchone` returning the first matching
row; `None` raises `SystemExit` (exit status 1). -/
def get_board_id_by_name (boards : List (String × String)) (board_name : String) :
    Option String :=
  (boards.find? (fun b => decide (sqlLower b.2 = sqlLower board_name))).map (fun b => b.1)

/-- `get_images_for_board`: `SELECT image_name FROM board_images WHERE
board_id = ?`. -/
def get_images_for_board (db : CDB) (board_id : String) : List String :=
  (db.board_images.filter (fun bi => decide (bi.1 = board_id))).map (fun bi => bi.2)

/-- One `UPDATE images SET image_category = cat, image_origin = orig
WHERE image_name = ?` statement. -/
def updateOne (cat orig : String) (imgs : List CImage) (name : String) : List CImage :=
  imgs.map (fun r =>
    if r.image_name = name then { r with image_category := cat, image_origin := orig } else r)

/-- The number of rows the statement touches (`sqlite3` counts matched
rows of an UPDATE towards `cur.rowcount`). -/
def updateCount (imgs : List CImage) (name : String) : Nat :=
  (imgs.filter (fun r => decide (r.image_name = name))).length

/-- `cur.executemany` over the name list: statements run in order, and
`cur.rowcount` accumulates the per-statement counts. -/
def execManyUpdate (cat orig : String) (imgs : List CImage) (names : List String) :
    List CImage × Nat :=
  names.foldl (fun acc name => (updateOne cat orig acc.1 name, acc.2 + updateCount acc.1 name))
    (imgs, 0)

/-- Common body of `mark_images_as_assets` / `mark_images_as_general`:
an empty name list returns 0 untouched; a dry run prints the names and
returns their number; otherwise the batch of UPDATEs runs and commits. -/
def markImages (cat orig : String) (imgs : List CImage) (names : List String)
    (dry_run : Bool) : List CImage × Nat :=
  if names.isEmpty then (imgs, 0)
  else if dry_run then (imgs, names.length)
  else execManyUpdate cat orig imgs names

/-- `mark_images_as_assets`: `image_category = 'user'`,
`image_origin = 'external'`. -/
def mark_images_as_assets (imgs : List CImage) (names : List String) (dry_run : Bool) :
    List CImage × Nat :=
  markImages "user" "external" imgs names dry_run

/-- `mark_images_as_general`: `image_category = 'general'`,
`image_origin = 'internal'`. -/
def mark_images_as_general (imgs : List CImage) (names : List String) (dry_run : Bool) :
    List CImage × Nat :=
  markImages "general" "internal" imgs names dry_run

/-- Outcome of a reclassification run: whether the process exits with
status zero, the final database, and the update count it reports
(`0` both for the aborted run and for the `No images found` early
return). -/
structure ConvResult where
  ok : Bool
  db : CDB
  updated : Nat
deriving DecidableEq

/-- Common `main` of the two reclassification tools: resolve the board
(an unknown name raises `SystemExit`, closing the connection and
terminating with status 1 before any write), fetch the linked names,
return early when there are none, otherwise run the update batch. -/
def convMain (cat orig : String) (db : CDB) (board_name : String) (dry_run : Bool) :
    ConvResult :=
  match get_board_id_by_name db.boards board_name with
  | none => ⟨false, db, 0⟩
  | some bid =>
    let names := get_images_for_board db bid
    if names.isEmpty then ⟨true, db, 0⟩
    else
      let p := markImages cat orig db.images names dry_run
      ⟨true, { db with images := p.1 }, p.2⟩

/-- `main` of `Convert_Board_to_Assets_v1.0.py`. -/
def mainAssets (db : CDB) (board_name : String) (dry_run : Bool) : ConvResult :=
  convMain "user" "external" db board_name dry_run

/-- `main` of `Convert_Assets_to_Board_v1.0.py`. -/
def mainGeneral (db : CDB) (board_name : String) (dry_run : Bool) : ConvResult :=
  convMain "general" "internal" db board_name dry_run

/-- The thumbnail path the reindex tool derives for a file under the
image root (total, since such a path is always under the outputs root
with nonempty relative part). -/
def thumbPathOf (root : List String) (f : PngFile) : List String :=
  match get_thumbnail_path root (imgAbsPath root f) with
  | Except.ok tp => tp
  | Except.error _ => []

/-- The actions a run announces (dry, verbose) or performs (real) for a
single file, relative to the initial database and filesystem. -/
def fileActs (g : Bool) (root : List String) (db0 : RDB) (fs0 : List (List String))
    (f : PngFile) : List Act :=
  if image_exists db0 (imageNameOf f) = true then []
  else if f.loadFails = true then []
  else
    [Act.insertImage (imageNameOf f), Act.linkImage (imageNameOf f)]
      ++ (if g = true then
            (if thumbPathOf root f ∈ fs0 then [] else [Act.createThumb (thumbPathOf root f)])
          else [])

/-- The actions a dry run announces for a single file, at verbosity
`v`: the would-be INSERT is printed unconditionally, the would-be link
and thumbnail only when verbose. -/
def fileActsV (v g : Bool) (root : List String) (db0 : RDB) (fs0 : List (List String))
    (f : PngFile) : List Act :=
  if image_exists db0 (imageNameOf f) = true then []
  else if f.loadFails = true then []
  else
    [Act.insertImage (imageNameOf f)]
      ++ (if v = true then [Act.linkImage (imageNameOf f)] else [])
      ++ (if g = true then
            (if thumbPathOf root f ∈ fs0 then []
             else if v = true then [Act.createThumb (thumbPathOf root f)] else [])
          else [])

/-- The board identity a run ends up using: the stored board of the
dated name when one exists, otherwise the freshly generated UUID. -/
def effBid (db0 : RDB) (bn nid : String) : String :=
  match db0.boards.find? (fun b => decide (b.2 = bn)) with
  | some b => b.1
  | none => nid

/-! ### Concrete fixtures used to instantiate the theorems -/

def mt0 : DateTime := ⟨2024, 1, 2, 3, 4, 5, 0⟩

def cimg (nm : String) : CImage :=
  ⟨nm, "internal", "general", 1, 1, none, 0, "t0", "t0", none, 0⟩

/-- A catalog with two images, one board, and one dangling membership
row (`missing.png` is linked but has no image row). -/
def cdb1 : CDB :=
  ⟨[cimg "a.png", cimg "b.png"], [("B1", "My Board")],
    [("B1", "a.png"), ("B1", "missing.png")]⟩

/-- A well-behaved PNG file. -/
def fX : PngFile := ⟨["x.png"], 4, 4, none, none, false, mt0, false, false, false, false⟩

def fY : PngFile := ⟨["y.png"], 4, 4, none, none, false, mt0, false, false, false, false⟩

/-- A file whose thumbnail generation raises. -/
def fThumbBad : PngFile := ⟨["x.png"], 4, 4, none, none, false, mt0, false, false, false, true⟩

/-- A file whose image open raises. -/
def fLoadBad : PngFile := ⟨["l.png"], 4, 4, none, none, false, mt0, true, false, false, false⟩

/-- A file whose catalog INSERT raises. -/
def fInsertBad : PngFile := ⟨["i.png"], 4, 4, none, none, false, mt0, false, true, false, false⟩

def dbEmpty : RDB := ⟨[], [], []⟩

/-- A catalog already holding the row for `fX`. -/
def rdb1 : RDB :=
  ⟨[⟨"x.png", "internal", "general", 4, 4, none, 0, "t0", "t0", 0⟩], [], []⟩

/-- Decidable statement that no candidate metadata value parses under
any of the three formats: every searched key either is absent, holds a
non-string, or holds a string rejected by all formats. -/
def noCandidateParses (m : List (String × PJson)) : Bool :=
  createdKeys.all (fun k =>
    match jget m k with
    | some (PJson.str s) => (tryFormats s).isNone
    | _ => true)

/-! ### Lemmas about the reclassification tools -/

/-- A single UPDATE preserves `image_name`, so the row count a later
statement sees is unchanged. -/
theorem updateCount_updateOne (cat orig : String) (imgs : List CImage) (m n : String) :
    updateCount (updateOne cat orig imgs m) n = updateCount imgs n := by
  unfold updateCount updateOne
  induction imgs with
  | nil => rfl
  | cons r l ih =>
    simp only [List.map_cons, List.filter_cons]
    have hname :
        (if r.image_name = m then
            { r with image_category := cat, image_origin := orig }
          else r).image_name = r.image_name := by
      by_cases h : r.image_name = m <;> simp [h]
    rw [hname]
    by_cases hn : r.image_name = n
    · simp [hn, ih]
    · simp [hn, ih]

/-- The updating function is idempotent and name-preserving, so the
sequential batch equals the single simultaneous map over the table. -/
theorem execManyUpdate_fst (cat orig : String) :
    ∀ (names : List String) (imgs : List CImage) (c : Nat),
      (names.foldl
        (fun acc name => (updateOne cat orig acc.1 name, acc.2 + updateCount acc.1 name))
        (imgs, c)).1
      = imgs.map (fun r =>
          if r.image_name ∈ names then
            { r with image_category := cat, image_origin := orig }
          else r) := by
  intro names
  induction names with
  | nil =>
    intro imgs c
    simp [List.foldl]
  | cons n ns ih =>
    intro imgs c
    simp only [List.foldl_cons]
    rw [ih]
    simp only [updateOne, List.map_map]
    apply List.map_congr_left
    intro r _
    by_cases hr : r.image_name = n
    · simp [Function.comp, hr]
    · simp only [Function.comp_apply, if_neg hr]
      by_cases hm : r.image_name ∈ ns
      · simp [hm, hr]
      · simp [hm, hr]

/-- The accumulated `rowcount` is the sum of per-name match counts
against the initial table. -/
theorem execManyUpdate_snd (cat orig : String) :
    ∀ (names : List String) (imgs : List CImage) (c : Nat),
      (names.foldl
        (fun acc name => (updateOne cat orig acc.1 name, acc.2 + updateCount acc.1 name))
        (imgs, c)).2
      = c + (names.map (updateCount imgs)).sum := by
  intro names
  induction names with
  | nil => intro imgs c; simp [List.foldl]
  | cons n ns ih =>
    intro imgs c
    simp only [List.foldl_cons, List.map_cons, List.sum_cons]
    rw [ih]
    have hcnt : ns.map (updateCount (updateOne cat orig imgs n)) = ns.map (updateCount imgs) := by
      apply List.map_congr_left
      intro m _
      exact updateCount_updateOne cat orig imgs n m
    rw [hcnt]
    omega

/-- Unfolding one row of a match count. -/
theorem updateCount_cons (r : CImage) (l : List CImage) (n : String) :
    updateCount (r :: l) n = (if r.image_name = n then 1 else 0) + updateCount l n := by
  unfold updateCount
  rw [List.filter_cons]
  by_cases hrn : r.image_name = n
  · simp [hrn, Nat.add_comm]
  · simp [hrn]

/-- With unique image names (the table's primary key), a per-name match
count is 1 or 0 according to presence. -/
theorem updateCount_of_nodup (imgs : List CImage) (n : String)
    (h : (imgs.map (fun r => r.image_name)).Nodup) :
    updateCount imgs n = if n ∈ imgs.map (fun r => r.image_name) then 1 else 0 := by
  induction imgs with
  | nil => rfl
  | cons r l ih =>
    simp only [List.map_cons, List.nodup_cons] at h
    obtain ⟨hr, hl⟩ := h
    rw [updateCount_cons, ih hl]
    by_cases hn : r.image_name = n
    · subst hn
      simp [hr]
    · simp only [hn, if_false, Nat.zero_add, List.map_cons, List.mem_cons]
      by_cases hm : n ∈ l.map (fun r => r.image_name)
      · simp [hm, Ne.symm hn]
      · simp [hm, Ne.symm hn]

/-- Summing per-name counts over the linked names gives the number of
linked names present in the table. -/
theorem sum_updateCounts (imgs : List CImage)
    (h : (imgs.map (fun r => r.image_name)).Nodup) :
    ∀ names : List String,
      (names.map (updateCount imgs)).sum
        = (names.filter (fun n => decide (n ∈ imgs.map (fun r => r.image_name)))).length := by
  intro names
  induction names with
  | nil => rfl
  | cons n ns ih =>
    simp only [List.map_cons, List.sum_cons, List.filter_cons]
    rw [updateCount_of_nodup imgs n h, ih]
    by_cases hm : n ∈ imgs.map (fun r => r.image_name)
    · simp [hm, Nat.add_comm]
    · simp [hm]

theorem filter_length_lt {α : Type} (p : α → Bool) :
    ∀ l : List α, (∃ x ∈ l, p x = false) → (l.filter p).length < l.length := by
  intro l
  induction l with
  | nil => rintro ⟨x, hx, _⟩; cases hx
  | cons a l ih =>
    rintro ⟨x, hx, hpx⟩
    simp only [List.filter_cons]
    rcases List.mem_cons.mp hx with rfl | hxl
    · rw [hpx]
      have hle : (l.filter p).length ≤ l.length := l.length_filter_le p
      simpa using Nat.lt_succ_of_le hle
    · by_cases ha : p a
      · simp only [ha, if_true, List.length_cons]
        exact Nat.succ_lt_succ (ih ⟨x, hxl, hpx⟩)
      · simp only [ha, if_false]
        exact Nat.lt_trans (ih ⟨x, hxl, hpx⟩) (Nat.lt_succ_self _)

/-- Behaviour of a reclassification `main` on a resolvable board name,
parametric in the tool's two target values. -/
theorem convMain_spec (cat orig : String) (db : CDB) (bn bid : String)
    (h : get_board_id_by_name db.boards bn = some bid) :
    (convMain cat orig db bn false).ok = true
    ∧ (convMain cat orig db bn false).db.boards = db.boards
    ∧ (convMain cat orig db bn false).db.board_images = db.board_images
    ∧ (convMain cat orig db bn false).db.images
        = db.images.map (fun r =>
            if r.image_name ∈ get_images_for_board db bid then
              { r with image_category := cat, image_origin := orig }
            else r)
    ∧ (get_images_for_board db bid = [] → convMain cat orig db bn false = ⟨true, db, 0⟩) := by
  unfold convMain
  rw [h]
  dsimp only
  by_cases he : (get_images_for_board db bid).isEmpty = true
  · have hnil : get_images_for_board db bid = [] := List.isEmpty_iff.mp he
    rw [if_pos he]
    refine ⟨rfl, rfl, rfl, ?_, fun _ => rfl⟩
    simp [hnil]
  · have hne : get_images_for_board db bid ≠ [] := fun hc => he (by simp [hc])
    rw [if_neg he]
    refine ⟨rfl, rfl, rfl, ?_, fun hc => absurd hc hne⟩
    show (markImages cat orig db.images (get_images_for_board db bid) false).1
        = db.images.map (fun r =>
            if r.image_name ∈ get_images_for_board db bid then
              { r with image_category := cat, image_origin := orig }
            else r)
    unfold markImages
    rw [if_neg he, if_neg (by simp)]
    exact execManyUpdate_fst cat orig (get_images_for_board db bid) db.images 0

/-- Update counts of a reclassification `main`, parametric in the two
target values. -/
theorem convMain_counts (cat orig : String) (db : CDB) (bn bid : String)
    (h : get_board_id_by_name db.boards bn = some bid)
    (hnd : (db.images.map (fun r => r.image_name)).Nodup) :
    (convMain cat orig db bn true).updated = (get_images_for_board db bid).length
    ∧ (convMain cat orig db bn false).updated
        = ((get_images_for_board db bid).filter
            (fun n => decide (n ∈ db.images.map (fun r => r.image_name)))).length
    ∧ ((∃ n ∈ get_images_for_board db bid, n ∉ db.images.map (fun r => r.image_name)) →
        (convMain cat orig db bn false).updated < (convMain cat orig db bn true).updated) := by
  unfold convMain
  rw [h]
  dsimp only
  by_cases he : (get_images_for_board db bid).isEmpty = true
  · have hnil : get_images_for_board db bid = [] := List.isEmpty_iff.mp he
    simp only [if_pos he]
    refine ⟨by simp [hnil], by simp [hnil], ?_⟩
    rintro ⟨n, hn, _⟩
    rw [hnil] at hn
    cases hn
  · simp only [if_neg he]
    have keyd : (markImages cat orig db.images (get_images_for_board db bid) true).2
        = (get_images_for_board db bid).length := by
      unfold markImages
      rw [if_neg he, if_pos rfl]
    have key : (markImages cat orig db.images (get_images_for_board db bid) false).2
        = ((get_images_for_board db bid).filter
            (fun n => decide (n ∈ db.images.map (fun r => r.image_name)))).length := by
      unfold markImages
      rw [if_neg he, if_neg (by simp)]
      show (execManyUpdate cat orig db.images (get_images_for_board db bid)).2 = _
      unfold execManyUpdate
      rw [execManyUpdate_snd cat orig _ db.images 0]
      rw [sum_updateCounts db.images hnd]
      simp
    refine ⟨keyd, key, ?_⟩
    intro hex
    show (markImages cat orig db.images (get_images_for_board db bid) false).2
        < (markImages cat orig db.images (get_images_for_board db bid) true).2
    rw [key, keyd]
    apply filter_length_lt
    obtain ⟨n, hn, hmem⟩ := hex
    exact ⟨n, hn, by simpa using hmem⟩


/-- C5: an unknown board name makes either reclassification tool raise
`SystemExit` (exit status 1, non-zero) from `get_board_id_by_name`,
before any statement other than the SELECT has run: the database is
unchanged. -/
theorem unknown_board_aborts (db : CDB) (bn : String) (dry : Bool)
    (h : get_board_id_by_name db.boards bn = none) :
    mainAssets db bn dry = ⟨false, db, 0⟩ ∧ mainGeneral db bn dry = ⟨false, db, 0⟩ := by
  unfold mainAssets mainGeneral convMain
  rw [h]
  exact ⟨rfl, rfl⟩

theorem unknown_board_aborts_witness :
    mainAssets cdb1 "No Such Board" false = ⟨false, cdb1, 0⟩
    ∧ mainGeneral cdb1 "No Such Board" false = ⟨false, cdb1, 0⟩ :=
  unknown_board_aborts cdb1 "No Such Board" false (by decide)

/-- C4: a non-dry reclassification run maps every image row whose name
is linked to the resolved board to the same row with only
`image_category` and `image_origin` replaced by the tool's two target
values (`user`/`external` for the assets tool, `general`/`internal` for
the general tool); rows of non-linked images, the boards table and the
membership table are untouched; with zero linked images the run returns
the database unchanged, reports zero updates, and exits with status
zero. -/
theorem reclassify_frame (db : CDB) (bn bid : String)
    (h : get_board_id_by_name db.boards bn = some bid) :
    ((mainAssets db bn false).ok = true
      ∧ (mainAssets db bn false).db.boards = db.boards
      ∧ (mainAssets db bn false).db.board_images = db.board_images
      ∧ (mainAssets db bn false).db.images
          = db.images.map (fun r =>
              if r.image_name ∈ get_images_for_board db bid then
                { r with image_category := "user", image_origin := "external" }
              else r)
      ∧ (get_images_for_board db bid = [] → mainAssets db bn false = ⟨true, db, 0⟩))
    ∧ ((mainGeneral db bn false).ok = true
      ∧ (mainGeneral db bn false).db.boards = db.boards
      ∧ (mainGeneral db bn false).db.board_images = db.board_images
      ∧ (mainGeneral db bn false).db.images
          = db.images.map (fun r =>
              if r.image_name ∈ get_images_for_board db bid then
                { r with image_category := "general", image_origin := "internal" }
              else r)
      ∧ (get_images_for_board db bid = [] → mainGeneral db bn false = ⟨true, db, 0⟩)) :=
  ⟨convMain_spec "user" "external" db bn bid h,
   convMain_spec "general" "internal" db bn bid h⟩

theorem reclassify_frame_witness :
    (mainAssets cdb1 "My Board" false).db.images
        = cdb1.images.map (fun r =>
            if r.image_name ∈ get_images_for_board cdb1 "B1" then
              { r with image_category := "user", image_origin := "external" }
            else r)
    ∧ (mainAssets cdb1 "My Board" false).ok = true
    ∧ (mainGeneral cdb1 "My Board" false).db.board_images = cdb1.board_images :=
  ⟨(reclassify_frame cdb1 "My Board" "B1" (by decide)).1.2.2.2.1,
   (reclassify_frame cdb1 "My Board" "B1" (by decide)).1.1,
   (reclassify_frame cdb1 "My Board" "B1" (by decide)).2.2.2.1⟩

/-- C10: for both reclassification tools, a dry run reports one update
per membership row of the board, while a real run's `cur.rowcount`
counts only linked names with a matching image row; when some linked
name has no image row, the real count is strictly below the dry
count. -/
theorem reclassify_counts (db : CDB) (bn bid : String)
    (h : get_board_id_by_name db.boards bn = some bid)
    (hnd : (db.images.map (fun r => r.image_name)).Nodup) :
    ((mainAssets db bn true).updated = (get_images_for_board db bid).length
      ∧ (mainAssets db bn false).updated
          = ((get_images_for_board db bid).filter
              (fun n => decide (n ∈ db.images.map (fun r => r.image_name)))).length
      ∧ ((∃ n ∈ get_images_for_board db bid, n ∉ db.images.map (fun r => r.image_name)) →
          (mainAssets db bn false).updated < (mainAssets db bn true).updated))
    ∧ ((mainGeneral db bn true).updated = (get_images_for_board db bid).length
      ∧ (mainGeneral db bn false).updated
          = ((get_images_for_board db bid).filter
              (fun n => decide (n ∈ db.images.map (fun r => r.image_name)))).length
      ∧ ((∃ n ∈ get_images_for_board db bid, n ∉ db.images.map (fun r => r.image_name)) →
          (mainGeneral db bn false).updated < (mainGeneral db bn true).updated)) :=
  ⟨convMain_counts "user" "external" db bn bid h hnd,
   convMain_counts "general" "internal" db bn bid h hnd⟩

theorem reclassify_counts_witness :
    (mainAssets cdb1 "My Board" false).updated < (mainAssets cdb1 "My Board" true).updated
    ∧ (mainGeneral cdb1 "My Board" true).updated = (get_images_for_board cdb1 "B1").length :=
  ⟨(reclassify_counts cdb1 "My Board" "B1" (by decide) (by decide)).1.2.2 (by decide),
   (reclassify_counts cdb1 "My Board" "B1" (by decide) (by decide)).2.1⟩

/-- C9: board lookup compares names through SQLite's ASCII `LOWER`:
whenever some stored board name equals the query up to letter case,
the lookup succeeds and returns the identity of a case-insensitively
matching board (exactly the given board when lowered names are unique),
and it fails exactly when no stored name matches case-insensitively. -/
theorem board_lookup_ci (boards : List (String × String)) (q : String) :
    ((∃ b ∈ boards, sqlLower b.2 = sqlLower q) →
      ∃ bid bn, (bid, bn) ∈ boards ∧ sqlLower bn = sqlLower q
        ∧ get_board_id_by_name boards q = some bid)
    ∧ ((boards.map (fun b => sqlLower b.2)).Nodup →
      ∀ bid bn, (bid, bn) ∈ boards → sqlLower bn = sqlLower q →
        get_board_id_by_name boards q = some bid)
    ∧ (get_board_id_by_name boards q = none ↔ ∀ b ∈ boards, sqlLower b.2 ≠ sqlLower q) := by
  cases hf : boards.find? (fun b => decide (sqlLower b.2 = sqlLower q)) with
  | none =>
    have hall : ∀ b ∈ boards, ¬ sqlLower b.2 = sqlLower q := by
      intro b hb
      have hnp := List.find?_eq_none.mp hf b hb
      simpa using hnp
    refine ⟨?_, ?_, ?_⟩
    · rintro ⟨b, hb, hlow⟩
      exact absurd hlow (hall b hb)
    · intro _ bid bn hmem hlow
      exact absurd hlow (hall (bid, bn) hmem)
    · exact ⟨fun _ => hall, fun _ => by unfold get_board_id_by_name; rw [hf]; rfl⟩
  | some b0 =>
    have hmem0 : b0 ∈ boards := List.mem_of_find?_eq_some hf
    have hp0 : sqlLower b0.2 = sqlLower q := by
      have hb := List.find?_some hf
      simpa using hb
    have hlookup : get_board_id_by_name boards q = some b0.1 := by
      unfold get_board_id_by_name
      rw [hf]
      rfl
    refine ⟨?_, ?_, ?_⟩
    · intro _
      exact ⟨b0.1, b0.2, by simpa using hmem0, hp0, hlookup⟩
    · intro hnd bid bn hmem hlow
      have heq : b0 = (bid, bn) :=
        List.inj_on_of_nodup_map hnd hmem0 hmem (hp0.trans hlow.symm)
      rw [hlookup, heq]
    · constructor
      · intro hc
        rw [hlookup] at hc
        cases hc
      · intro hall
        exact absurd hp0 (hall b0 hmem0)

theorem board_lookup_ci_witness :
    get_board_id_by_name [("B1", "My Board")] "MY BOARD" = some "B1" :=
  (board_lookup_ci [("B1", "My Board")] "MY BOARD").2.1 (by decide) "B1" "My Board"
    (by decide) (by decide)


/-- When every searched key is unusable, the key search yields nothing. -/
theorem findDt_none (m : List (String × PJson)) :
    ∀ ks : List String,
      (∀ k ∈ ks, ∀ s : String, jget m k = some (PJson.str s) → tryFormats s = none) →
      findDt ks m = none := by
  intro ks
  induction ks with
  | nil => intro _; rfl
  | cons k ks ih =>
    intro h
    have htail : ∀ k' ∈ ks, ∀ s : String, jget m k' = some (PJson.str s) → tryFormats s = none :=
      fun k' hk' s hs => h k' (List.mem_cons_of_mem _ hk') s hs
    unfold findDt
    cases hj : jget m k with
    | none => exact ih htail
    | some v =>
      cases v with
      | other => exact ih htail
      | str s =>
        dsimp only
        rw [h k (List.mem_cons_self _ _) s hj]
        exact ih htail

/-- C6: `detect_created_at` searches the keys `created`, `created_at`,
`timestamp`, `time` in that order and the three formats in their written
order, stopping at the first successful parse; the spec's example value
under `created` resolves to `2024-01-02 03:04:05.000000`; when no
candidate value parses (or the metadata is absent), the result is the
file's modification time under `%Y-%m-%d %H:%M:%S.%f`. -/
theorem detect_created_at_spec :
    (∀ mt : DateTime,
      detect_created_at (some [("created", PJson.str "2024-01-02T03:04:05.000000Z")]) mt
        = "2024-01-02 03:04:05.000000")
    ∧ (∀ mt : DateTime, detect_created_at none mt = fmtTimestamp mt)
    ∧ (∀ (m : List (String × PJson)) (mt : DateTime), noCandidateParses m = true →
        detect_created_at (some m) mt = fmtTimestamp mt)
    ∧ (∀ (m : List (String × PJson)) (mt : DateTime) (s : String) (d : DateTime),
        jget m "created" = some (PJson.str s) → tryFormats s = some d →
        detect_created_at (some m) mt = fmtTimestamp d)
    ∧ (∀ (s : String) (d : DateTime), parseFmt1 s = some d → tryFormats s = some d) := by
  refine ⟨fun mt => rfl, fun mt => rfl, ?_, ?_, ?_⟩
  · intro m mt h
    have hprop : ∀ k ∈ createdKeys, ∀ s : String,
        jget m k = some (PJson.str s) → tryFormats s = none := by
      intro k hk s hs
      have hb := List.all_eq_true.mp h k hk
      rw [hs] at hb
      exact Option.isNone_iff_eq_none.mp hb
    unfold detect_created_at
    dsimp only
    by_cases he : m.isEmpty = true
    · rw [if_pos he]
    · rw [if_neg he, findDt_none m createdKeys hprop]
  · intro m mt s d h1 h2
    have hne : m.isEmpty = false := by
      cases m with
      | nil => rw [jget] at h1; cases h1
      | cons a l => rfl
    have hdt : findDt createdKeys m = some d := by
      show findDt ("created" :: ["created_at", "timestamp", "time"]) m = some d
      unfold findDt
      rw [h1]
      dsimp only
      rw [h2]
    unfold detect_created_at
    dsimp only
    rw [hne]
    simp only [Bool.false_eq_true, if_false]
    rw [hdt]
  · intro s d h
    unfold tryFormats
    rw [h]

theorem detect_created_at_spec_witness :
    detect_created_at (some [("created", PJson.str "not a date")]) mt0 = fmtTimestamp mt0
    ∧ detect_created_at
        (some [("time", PJson.other), ("created", PJson.str "2024-01-02 03:04:05")]) mt0
        = fmtTimestamp ⟨2024, 1, 2, 3, 4, 5, 0⟩ :=
  ⟨detect_created_at_spec.2.2.1 [("created", PJson.str "not a date")] mt0 (by decide),
   detect_created_at_spec.2.2.2.1
     [("time", PJson.other), ("created", PJson.str "2024-01-02 03:04:05")] mt0
     "2024-01-02 03:04:05" ⟨2024, 1, 2, 3, 4, 5, 0⟩ (by decide) (by decide)⟩

/-- A component list is a prefix of itself extended. -/
theorem isPrefixOf_append_self : ∀ (l m : List String), l.isPrefixOf (l ++ m) = true := by
  intro l m
  induction l with
  | nil => simp
  | cons a l ih => simp [List.isPrefixOf_cons₂, ih]

/-- Rewriting the extension of the last component. -/
theorem setLastWebp_append (x : String) :
    ∀ l : List String, setLastWebp (l ++ [x]) = some (l ++ [pyStem x ++ ".webp"]) := by
  intro l
  induction l with
  | nil => rfl
  | cons a l ih =>
    cases l with
    | nil => rfl
    | cons b l' =>
      show (setLastWebp (b :: l' ++ [x])).map (fun l => a :: l) = _
      rw [ih]
      rfl

/-- Thumbnail path when the first relative component is `images`. -/
theorem gtp_images (R rest : List String) (x : String) :
    get_thumbnail_path R (R ++ "images" :: (rest ++ [x]))
      = Except.ok (R ++ "images" :: "thumbnails" :: (rest ++ [pyStem x ++ ".webp"])) := by
  unfold get_thumbnail_path
  rw [if_pos (isPrefixOf_append_self R _), List.drop_left]
  dsimp only
  have h1 : insertThumbs ("images" :: (rest ++ [x]))
      = ("images" :: "thumbnails" :: rest) ++ [x] := by
    simp [insertThumbs]
  rw [h1, setLastWebp_append]
  rfl

/-- Thumbnail path when the first relative component is not `images`. -/
theorem gtp_other (R rel : List String) (x : String)
    (h : (rel ++ [x]).head? ≠ some "images") :
    get_thumbnail_path R (R ++ (rel ++ [x]))
      = Except.ok (R ++ (rel ++ [pyStem x ++ ".webp"])) := by
  unfold get_thumbnail_path
  rw [if_pos (isPrefixOf_append_self R _), List.drop_left]
  dsimp only
  have h1 : insertThumbs (rel ++ [x]) = rel ++ [x] := by
    cases rel with
    | nil =>
      have hx : x ≠ "images" := fun hc => h (by simp [hc])
      simp [insertThumbs, hx]
    | cons p0 rel' =>
      have hp0 : p0 ≠ "images" := fun hc => h (by simp [hc])
      simp [insertThumbs, hp0]
  rw [h1, setLastWebp_append]

/-- C7: for a path under the outputs root, `get_thumbnail_path` inserts
`thumbnails` right after the first relative component exactly when that
component is `images` and forces the `.webp` extension (in particular
`R/images/a/b.png` maps to `R/images/thumbnails/a/b.webp`); for a path
not under the root it raises `ValueError`. -/
theorem get_thumbnail_path_spec :
    (∀ R : List String,
      get_thumbnail_path R (R ++ ["images", "a", "b.png"])
        = Except.ok (R ++ ["images", "thumbnails", "a", "b.webp"]))
    ∧ (∀ (R rest : List String) (x : String),
      get_thumbnail_path R (R ++ "images" :: (rest ++ [x]))
        = Except.ok (R ++ "images" :: "thumbnails" :: (rest ++ [pyStem x ++ ".webp"])))
    ∧ (∀ (R rel : List String) (x : String), (rel ++ [x]).head? ≠ some "images" →
      get_thumbnail_path R (R ++ (rel ++ [x]))
        = Except.ok (R ++ (rel ++ [pyStem x ++ ".webp"])))
    ∧ (∀ R p : List String, R.isPrefixOf p = false →
      get_thumbnail_path R p = Except.error Err.valueError) := by
  refine ⟨fun R => gtp_images R ["a"] "b.png", gtp_images, gtp_other, ?_⟩
  intro R p h
  unfold get_thumbnail_path
  rw [h]
  rfl

theorem get_thumbnail_path_spec_witness :
    get_thumbnail_path ["out"] (["out"] ++ (["sub"] ++ ["c.png"]))
      = Except.ok (["out"] ++ (["sub"] ++ [pyStem "c.png" ++ ".webp"]))
    ∧ get_thumbnail_path ["out"] ["elsewhere", "c.png"] = Except.error Err.valueError :=
  ⟨get_thumbnail_path_spec.2.2.1 ["out"] ["sub"] "c.png" (by decide),
   get_thumbnail_path_spec.2.2.2 ["out"] ["elsewhere", "c.png"] (by decide)⟩

/-- C8: `ensure_thumbnail` returns before any directory creation, image
processing or write whenever the derived thumbnail path already exists
on the filesystem; consequently a second call for the same source file
after a successful real call finds the file present and performs
nothing, never overwriting an existing thumbnail. -/
theorem ensure_thumbnail_noop :
    (∀ (root ipath tp : List String) (dry vb : Bool) (fs : List (List String)) (fail : Bool),
      get_thumbnail_path root ipath = Except.ok tp → tp ∈ fs →
      ensure_thumbnail root ipath dry vb fs fail = Except.ok (fs, []))
    ∧ (∀ (root ipath : List String) (vb vb' : Bool) (fs fs' : List (List String))
        (acts : List Act) (fail fail' : Bool),
      ensure_thumbnail root ipath false vb fs fail = Except.ok (fs', acts) →
      ensure_thumbnail root ipath false vb' fs' fail' = Except.ok (fs', [])) := by
  constructor
  · intro root ipath tp dry vb fs fail hok hmem
    unfold ensure_thumbnail
    rw [hok]
    dsimp only
    rw [if_pos hmem]
  · intro root ipath vb vb' fs fs' acts fail fail' h
    unfold ensure_thumbnail at h ⊢
    cases hok : get_thumbnail_path root ipath with
    | error e =>
      rw [hok] at h
      cases h
    | ok tp =>
      rw [hok] at h
      dsimp only at h ⊢
      by_cases hmem : tp ∈ fs
      · rw [if_pos hmem] at h
        simp only [Except.ok.injEq, Prod.mk.injEq] at h
        obtain ⟨hfs, _⟩ := h
        subst hfs
        rw [if_pos hmem]
      · rw [if_neg hmem, if_neg (by simp)] at h
        by_cases hfail : fail = true
        · rw [if_pos hfail] at h
          cases h
        · rw [if_neg hfail] at h
          simp only [Except.ok.injEq, Prod.mk.injEq] at h
          obtain ⟨hfs, _⟩ := h
          subst hfs
          rw [if_pos (List.mem_cons_self tp fs)]

theorem ensure_thumbnail_noop_witness :
    ensure_thumbnail ["out"] ["out", "images", "x.png"] false false
      [["out", "images", "thumbnails", "x.webp"]] true
      = Except.ok ([["out", "images", "thumbnails", "x.webp"]], [])
    ∧ ensure_thumbnail ["out"] ["out", "images", "y.png"] false true
        [["out", "images", "thumbnails", "y.webp"]] true
        = Except.ok ([["out", "images", "thumbnails", "y.webp"]], []) :=
  ⟨ensure_thumbnail_noop.1 ["out"] ["out", "images", "x.png"]
      ["out", "images", "thumbnails", "x.webp"] false false
      [["out", "images", "thumbnails", "x.webp"]] true rfl (by decide),
   ensure_thumbnail_noop.2 ["out"] ["out", "images", "y.png"] false true []
      [["out", "images", "thumbnails", "y.webp"]] [Act.createThumb ["out", "images", "thumbnails", "y.webp"]]
      false true rfl⟩

/-! ### Lemmas about the reconciliation driver -/

/-- A nonempty component list always admits the extension rewrite. -/
theorem setLastWebp_isSome (a : String) : ∀ l : List String, ∃ m, setLastWebp (a :: l) = some m := by
  intro l
  induction l generalizing a with
  | nil => exact ⟨[pyStem a ++ ".webp"], rfl⟩
  | cons b l' ih =>
    obtain ⟨m, hm⟩ := ih b
    exact ⟨a :: m, by show (setLastWebp (b :: l')).map (fun l => a :: l) = _; rw [hm]; rfl⟩

/-- Thumbnail derivation never raises for a file under the image root. -/
theorem thumbPathOf_ok (root : List String) (f : PngFile) :
    get_thumbnail_path root (imgAbsPath root f) = Except.ok (thumbPathOf root f) := by
  have hex : ∃ tp, get_thumbnail_path root (imgAbsPath root f) = Except.ok tp := by
    unfold get_thumbnail_path imgAbsPath
    rw [if_pos (isPrefixOf_append_self root _), List.drop_left]
    dsimp only
    rw [show insertThumbs ("images" :: f.relParts) = "images" :: "thumbnails" :: f.relParts
      from by simp [insertThumbs]]
    obtain ⟨m, hm⟩ := setLastWebp_isSome "images" ("thumbnails" :: f.relParts)
    rw [hm]
    exact ⟨_, rfl⟩
  obtain ⟨tp, htp⟩ := hex
  unfold thumbPathOf
  rw [htp]

/-- `ensure_import_board` touches neither the images table, the
membership table, nor the filesystem, and leaves a dry run's mutation
list and a real run's report list empty as they were. -/
theorem ensure_import_board_frame (cfg : Config) (bn nid : String) (st : RunState) :
    ((ensure_import_board cfg bn nid st).2).db.images = st.db.images
    ∧ ((ensure_import_board cfg bn nid st).2).db.board_images = st.db.board_images
    ∧ ((ensure_import_board cfg bn nid st).2).fs = st.fs := by
  unfold ensure_import_board
  cases st.db.boards.find? (fun b => decide (b.2 = bn)) with
  | some b => exact ⟨rfl, rfl, rfl⟩
  | none =>
    dsimp only
    by_cases hd : cfg.dry = true
    · rw [if_pos hd]
      exact ⟨rfl, rfl, rfl⟩
    · rw [if_neg hd]
      exact ⟨rfl, rfl, rfl⟩

/-- Files already cataloged are skipped with no state change at all. -/
theorem processFiles_skip (cfg : Config) (root : List String) (bid : String) :
    ∀ (files : List PngFile) (st : RunState),
      (∀ f ∈ files, image_exists st.db (imageNameOf f) = true) →
      processFiles cfg root bid files st = Except.ok st := by
  intro files
  induction files with
  | nil => intro st _; rfl
  | cons f rest ih =>
    intro st h
    unfold processFiles processFile
    dsimp only
    rw [if_pos (h f (List.mem_cons_self _ _))]
    exact ih st (fun q hq => h q (List.mem_cons_of_mem _ hq))

/-- C1: a file whose identity already has a row in the images table is
skipped right after the existence check, with no insert and no link;
hence a reconciliation run over an already-cataloged directory leaves
the images table and the membership table exactly as they were. -/
theorem reconcile_idempotent :
    (∀ (cfg : Config) (root : List String) (bid : String) (st : RunState) (f : PngFile),
      image_exists st.db (imageNameOf f) = true →
      processFile cfg root bid st f = Except.ok st)
    ∧ (∀ (cfg : Config) (root : List String) (bn nid : String) (files : List PngFile)
        (db : RDB) (fs : List (List String)),
      (∀ f ∈ files, image_exists db (imageNameOf f) = true) →
      ∃ st', runReconcile cfg root bn nid files db fs = Except.ok st'
        ∧ st'.db.images = db.images ∧ st'.db.board_images = db.board_images) := by
  constructor
  · intro cfg root bid st f h
    unfold processFile
    dsimp only
    rw [if_pos h]
  · intro cfg root bn nid files db fs h
    unfold runReconcile
    dsimp only
    obtain ⟨h1, h2, _⟩ := ensure_import_board_frame cfg bn nid ⟨db, fs, [], []⟩
    have hex : ∀ f ∈ files,
        image_exists ((ensure_import_board cfg bn nid ⟨db, fs, [], []⟩).2).db (imageNameOf f)
          = true := by
      intro f hf
      unfold image_exists
      rw [h1]
      exact h f hf
    exact ⟨_, processFiles_skip cfg root _ files _ hex, h1, h2⟩

theorem reconcile_idempotent_witness :
    ∃ st', runReconcile ⟨false, false, true⟩ ["out"] "Recovered 02-01-24" "B1" [fX] rdb1 []
        = Except.ok st'
      ∧ st'.db.images = rdb1.images ∧ st'.db.board_images = rdb1.board_images :=
  reconcile_idempotent.2 ⟨false, false, true⟩ ["out"] "Recovered 02-01-24" "B1" [fX] rdb1 []
    (by decide)

/-- `ensure_thumbnail` cannot raise when the Pillow calls do not. -/
theorem ensure_thumbnail_total (root : List String) (f : PngFile) (dry vb : Bool)
    (fs : List (List String)) :
    ∃ r, ensure_thumbnail root (imgAbsPath root f) dry vb fs false = Except.ok r := by
  unfold ensure_thumbnail
  rw [thumbPathOf_ok]
  dsimp only
  by_cases hm : thumbPathOf root f ∈ fs
  · rw [if_pos hm]
    exact ⟨_, rfl⟩
  · rw [if_neg hm]
    by_cases hd : dry = true
    · rw [if_pos hd]
      exact ⟨_, rfl⟩
    · rw [if_neg hd]
      simp only [Bool.false_eq_true, if_false]
      exact ⟨_, rfl⟩

/-- A file whose thumbnail step does not raise can never abort the
driver: every other per-file failure is caught. -/
theorem processFile_total (cfg : Config) (root : List String) (bid : String) (st : RunState)
    (f : PngFile) (h : f.thumbFails = false) :
    ∃ st', processFile cfg root bid st f = Except.ok st' := by
  unfold processFile
  dsimp only
  by_cases h1 : image_exists st.db (imageNameOf f) = true
  · rw [if_pos h1]; exact ⟨st, rfl⟩
  · rw [if_neg h1]
    by_cases h2 : f.loadFails = true
    · rw [if_pos h2]; exact ⟨st, rfl⟩
    · rw [if_neg h2]
      by_cases h3 : (!cfg.dry && f.insertFails) = true
      · rw [if_pos h3]; exact ⟨st, rfl⟩
      · rw [if_neg h3]
        by_cases h4 : (!cfg.dry && f.linkFails) = true
        · rw [if_pos h4]; exact ⟨_, rfl⟩
        · rw [if_neg h4]
          by_cases h5 : cfg.genThumbs = true
          · rw [if_pos h5, h]
            obtain ⟨r, hr⟩ := ensure_thumbnail_total root f cfg.dry cfg.verbose _
            rw [hr]
            exact ⟨_, rfl⟩
          · rw [if_neg h5]
            exact ⟨_, rfl⟩

/-- C2 counterexample: a failure inside the optional thumbnail step is
not caught by any per-file handler; with `--gen-thumbs` it aborts the
whole run (the second, healthy file is never reached), contradicting
the claim that every per-file failure, including thumbnail-generation
failures, is caught and skipped. -/
theorem thumb_failure_aborts :
    runReconcile ⟨false, false, true⟩ ["out"] "Recovered 02-01-24" "B1" [fThumbBad, fY]
      dbEmpty [] = Except.error Err.imageError := by
  rfl

/-- C2 (amended): any exception while reading a file's metadata or while
inserting/linking its row is caught and the driver proceeds; only the
thumbnail step can abort, so a run over files whose thumbnail step does
not raise always completes, whatever the other per-file failures. -/
theorem per_file_errors_caught (cfg : Config) (root : List String) (bn nid : String)
    (files : List PngFile) (db : RDB) (fs : List (List String))
    (h : ∀ f ∈ files, f.thumbFails = false) :
    ∃ st', runReconcile cfg root bn nid files db fs = Except.ok st' := by
  unfold runReconcile
  dsimp only
  generalize (ensure_import_board cfg bn nid ⟨db, fs, [], []⟩).2 = st0
  induction files generalizing st0 with
  | nil => exact ⟨st0, rfl⟩
  | cons f rest ih =>
    obtain ⟨st1, h1⟩ :=
      processFile_total cfg root _ st0 f (h f (List.mem_cons_self _ _))
    obtain ⟨st', hrun⟩ := ih (fun q hq => h q (List.mem_cons_of_mem _ hq)) st1
    refine ⟨st', ?_⟩
    unfold processFiles
    rw [h1]
    exact hrun

theorem per_file_errors_caught_witness :
    ∃ st', runReconcile ⟨false, true, true⟩ ["out"] "Recovered 02-01-24" "B1"
        [fLoadBad, fInsertBad, fY] dbEmpty [] = Except.ok st' :=
  per_file_errors_caught ⟨false, true, true⟩ ["out"] "Recovered 02-01-24" "B1"
    [fLoadBad, fInsertBad, fY] dbEmpty [] (by decide)

/-- C3 counterexample: over one fresh file and an absent board, a
non-verbose dry run reports only the image INSERT, while the real run
over the same initial state also creates the board row and the
membership link, so the reported set differs from the performed set. -/
theorem dry_run_report_mismatch :
    ((runReconcile ⟨true, false, false⟩ ["out"] "Recovered 02-01-24" "B1" [fX] dbEmpty
        []).toOption.map (fun st => st.reported))
      = some [Act.insertImage "x.png"]
    ∧ ((runReconcile ⟨false, false, false⟩ ["out"] "Recovered 02-01-24" "B1" [fX] dbEmpty
        []).toOption.map (fun st => st.mutated))
      = some [Act.createBoard "Recovered 02-01-24", Act.insertImage "x.png",
          Act.linkImage "x.png"]
    ∧ Act.linkImage "x.png" ∉ [Act.insertImage "x.png"] :=
  ⟨rfl, rfl, by decide⟩

/-- In a dry run, one file contributes exactly its announced actions
and the state is otherwise untouched. -/
theorem processFile_dry (v g : Bool) (root : List String) (bid : String) (st : RunState)
    (f : PngFile) :
    processFile ⟨true, v, g⟩ root bid st f
      = Except.ok { st with reported := st.reported ++ fileActsV v g root st.db st.fs f } := by
  by_cases h1 : image_exists st.db (imageNameOf f) = true
  · simp [processFile, fileActsV, h1]
  · by_cases h2 : f.loadFails = true
    · simp [processFile, fileActsV, h1, h2]
    · by_cases hg : g = true
      · by_cases hm : thumbPathOf root f ∈ st.fs
        · simp [processFile, fileActsV, insert_image, add_to_board, applyThumb,
            ensure_thumbnail, thumbPathOf_ok, h1, h2, hg, hm]
        · simp [processFile, fileActsV, insert_image, add_to_board, applyThumb,
            ensure_thumbnail, thumbPathOf_ok, h1, h2, hg, hm]
      · simp [processFile, fileActsV, insert_image, add_to_board, applyThumb,
          ensure_thumbnail, thumbPathOf_ok, h1, h2, hg]

/-- At full verbosity the announced actions are exactly the per-file
actions a real run performs. -/
theorem fileActsV_true (g : Bool) (root : List String) (db0 : RDB)
    (fs0 : List (List String)) (f : PngFile) :
    fileActsV true g root db0 fs0 f = fileActs g root db0 fs0 f := by
  unfold fileActsV fileActs
  by_cases h1 : image_exists db0 (imageNameOf f) = true
  · simp [h1]
  · by_cases h2 : f.loadFails = true
    · simp [h1, h2]
    · simp [h1, h2]

/-- A dry run leaves database, filesystem and mutation list untouched
and announces exactly the per-file actions, computed against the
(constant) initial state. -/
theorem processFiles_dry (v g : Bool) (root : List String) (bid : String) :
    ∀ (files : List PngFile) (st : RunState),
      processFiles ⟨true, v, g⟩ root bid files st
        = Except.ok { st with
            reported := st.reported ++ files.flatMap (fileActsV v g root st.db st.fs) } := by
  intro files
  induction files with
  | nil =>
    intro st
    unfold processFiles
    simp
  | cons f rest ih =>
    intro st
    unfold processFiles
    rw [processFile_dry]
    dsimp only
    rw [ih]
    simp [List.append_assoc]

/-- A fresh, readable, failure-free file in a real run: the row is
inserted, the link added (the pair being absent), and the thumbnail
created when requested and missing. -/
theorem processFile_real_fresh (g v : Bool) (root : List String) (bid : String)
    (st : RunState) (f : PngFile)
    (hff : f.insertFails = false) (hlf : f.linkFails = false) (htf : f.thumbFails = false)
    (hex : image_exists st.db (imageNameOf f) = false)
    (hload : f.loadFails = false)
    (hnl : (bid, imageNameOf f) ∉ st.db.board_images) :
    processFile ⟨false, v, g⟩ root bid st f = Except.ok
      { db := { images := st.db.images
                  ++ [buildRow f (imageNameOf f) (detect_created_at f.metaJson f.mtime)],
                boards := st.db.boards,
                board_images := st.db.board_images ++ [(bid, imageNameOf f)] },
        fs := (if g = true ∧ thumbPathOf root f ∉ st.fs then [thumbPathOf root f] else [])
                ++ st.fs,
        reported := st.reported,
        mutated := st.mutated
          ++ ([Act.insertImage (imageNameOf f), Act.linkImage (imageNameOf f)]
            ++ (if g = true then
                  (if thumbPathOf root f ∈ st.fs then [] else
                    [Act.createThumb (thumbPathOf root f)])
                else [])) } := by
  by_cases hg : g = true
  · by_cases hm : thumbPathOf root f ∈ st.fs
    · simp [processFile, insert_image, add_to_board, applyThumb, ensure_thumbnail,
        thumbPathOf_ok, hex, hload, hff, hlf, htf, hnl, hg, hm]
    · simp [processFile, insert_image, add_to_board, applyThumb, ensure_thumbnail,
        thumbPathOf_ok, hex, hload, hff, hlf, htf, hnl, hg, hm]
  · simp [processFile, insert_image, add_to_board, applyThumb, ensure_thumbnail,
      thumbPathOf_ok, hex, hload, hff, hlf, htf, hnl, hg]

/-- Existential packaging of `processFile_real_fresh` through the new
state's projections. -/
theorem processFile_real_fresh_ex (g v : Bool) (root : List String) (bid : String)
    (st : RunState) (f : PngFile)
    (hff : f.insertFails = false) (hlf : f.linkFails = false) (htf : f.thumbFails = false)
    (hex : image_exists st.db (imageNameOf f) = false)
    (hload : f.loadFails = false)
    (hnl : (bid, imageNameOf f) ∉ st.db.board_images) :
    ∃ stN, processFile ⟨false, v, g⟩ root bid st f = Except.ok stN
      ∧ stN.db.images = st.db.images
          ++ [buildRow f (imageNameOf f) (detect_created_at f.metaJson f.mtime)]
      ∧ stN.db.boards = st.db.boards
      ∧ stN.db.board_images = st.db.board_images ++ [(bid, imageNameOf f)]
      ∧ stN.fs = (if g = true ∧ thumbPathOf root f ∉ st.fs then [thumbPathOf root f]
          else []) ++ st.fs
      ∧ stN.reported = st.reported
      ∧ stN.mutated = st.mutated
          ++ ([Act.insertImage (imageNameOf f), Act.linkImage (imageNameOf f)]
            ++ (if g = true then
                  (if thumbPathOf root f ∈ st.fs then [] else
                    [Act.createThumb (thumbPathOf root f)])
                else [])) :=
  ⟨_, processFile_real_fresh g v root bid st f hff hlf htf hex hload hnl,
    rfl, rfl, rfl, rfl, rfl, rfl⟩

/-- A real run over distinct-by-name, distinct-by-thumbnail,
failure-free files performs exactly the actions a verbose dry run over
the same initial state would announce (provided no membership row
already links the run's board to a not-yet-cataloged name). -/
theorem processFiles_real (g v : Bool) (root : List String) (bid : String) (db0 : RDB)
    (fs0 : List (List String)) :
    ∀ (files : List PngFile) (st : RunState),
      (files.map imageNameOf).Nodup →
      (files.map (thumbPathOf root)).Nodup →
      (∀ f ∈ files, f.insertFails = false ∧ f.linkFails = false ∧ f.thumbFails = false) →
      (∀ f ∈ files, image_exists st.db (imageNameOf f) = image_exists db0 (imageNameOf f)) →
      (∀ f ∈ files, ((bid, imageNameOf f) ∈ st.db.board_images
          ↔ (bid, imageNameOf f) ∈ db0.board_images)) →
      (∀ f ∈ files, (thumbPathOf root f ∈ st.fs ↔ thumbPathOf root f ∈ fs0)) →
      (∀ f ∈ files, image_exists db0 (imageNameOf f) = false →
          (bid, imageNameOf f) ∉ db0.board_images) →
      ∃ st', processFiles ⟨false, v, g⟩ root bid files st = Except.ok st'
        ∧ st'.mutated = st.mutated ++ files.flatMap (fileActs g root db0 fs0) := by
  intro files
  induction files with
  | nil =>
    intro st _ _ _ _ _ _ _
    exact ⟨st, rfl, by simp⟩
  | cons f rest ih =>
    intro st hn ht hfl h1 h2 h3 h4
    rw [List.map_cons, List.nodup_cons] at hn ht
    obtain ⟨hnf, hn'⟩ := hn
    obtain ⟨htpf, ht'⟩ := ht
    obtain ⟨hffi, hlfi, htfi⟩ := hfl f (List.mem_cons_self _ _)
    have h1f := h1 f (List.mem_cons_self _ _)
    have hfl' := fun q hq => hfl q (List.mem_cons_of_mem f hq)
    have h4' := fun q hq => h4 q (List.mem_cons_of_mem f hq)
    by_cases hex0 : image_exists db0 (imageNameOf f) = true
    · have hexs : image_exists st.db (imageNameOf f) = true := by rw [h1f]; exact hex0
      have hpf : processFile ⟨false, v, g⟩ root bid st f = Except.ok st := by
        unfold processFile
        dsimp only
        rw [if_pos hexs]
      obtain ⟨st', hrun, hmut⟩ := ih st hn' ht' hfl'
        (fun q hq => h1 q (List.mem_cons_of_mem f hq))
        (fun q hq => h2 q (List.mem_cons_of_mem f hq))
        (fun q hq => h3 q (List.mem_cons_of_mem f hq)) h4'
      refine ⟨st', ?_, ?_⟩
      · unfold processFiles
        rw [hpf]
        exact hrun
      · rw [hmut]
        simp [fileActs, hex0]
    · have hex0f : image_exists db0 (imageNameOf f) = false := by
        revert hex0
        cases image_exists db0 (imageNameOf f) <;> simp
      have hexs : image_exists st.db (imageNameOf f) = false := by rw [h1f]; exact hex0f
      by_cases hld : f.loadFails = true
      · have hpf : processFile ⟨false, v, g⟩ root bid st f = Except.ok st := by
          unfold processFile
          dsimp only
          rw [if_neg (by simp [hexs]), if_pos hld]
        obtain ⟨st', hrun, hmut⟩ := ih st hn' ht' hfl'
          (fun q hq => h1 q (List.mem_cons_of_mem f hq))
          (fun q hq => h2 q (List.mem_cons_of_mem f hq))
          (fun q hq => h3 q (List.mem_cons_of_mem f hq)) h4'
        refine ⟨st', ?_, ?_⟩
        · unfold processFiles
          rw [hpf]
          exact hrun
        · rw [hmut]
          simp [fileActs, hex0f, hld]
      · have hldf : f.loadFails = false := by
          revert hld
          cases f.loadFails <;> simp
        have hnl : (bid, imageNameOf f) ∉ st.db.board_images :=
          fun hc => (h4 f (List.mem_cons_self _ _) hex0f)
            ((h2 f (List.mem_cons_self _ _)).mp hc)
        have hname : ∀ q ∈ rest, imageNameOf f ≠ imageNameOf q := by
          intro q hq hc
          exact hnf (by rw [hc]; exact List.mem_map_of_mem imageNameOf hq)
        have htpq : ∀ q ∈ rest, thumbPathOf root f ≠ thumbPathOf root q := by
          intro q hq hc
          exact htpf (by rw [hc]; exact List.mem_map_of_mem (thumbPathOf root) hq)
        obtain ⟨stN, hpf, hI, hB, hL, hF, hR, hM⟩ :=
          processFile_real_fresh_ex g v root bid st f hffi hlfi htfi hexs hldf hnl
        obtain ⟨st', hrun, hmut⟩ := ih stN hn' ht' hfl'
          (by
            intro q hq
            have hne := hname q hq
            have heq : image_exists stN.db (imageNameOf q)
                = image_exists st.db (imageNameOf q) := by
              unfold image_exists
              rw [hI, List.any_append]
              simp [buildRow, hne]
            rw [heq]
            exact h1 q (List.mem_cons_of_mem f hq))
          (by
            intro q hq
            have hne := hname q hq
            have hstep : ((bid, imageNameOf q) ∈ stN.db.board_images)
                ↔ ((bid, imageNameOf q) ∈ st.db.board_images) := by
              rw [hL]
              simp [List.mem_append, Ne.symm hne]
            exact hstep.trans (h2 q (List.mem_cons_of_mem f hq)))
          (by
            intro q hq
            have hne := htpq q hq
            have hstep : (thumbPathOf root q ∈ stN.fs)
                ↔ (thumbPathOf root q ∈ st.fs) := by
              rw [hF]
              by_cases hc : g = true ∧ thumbPathOf root f ∉ st.fs
              · simp [hc, Ne.symm hne]
              · simp [hc]
            exact hstep.trans (h3 q (List.mem_cons_of_mem f hq)))
          h4'
        refine ⟨st', ?_, ?_⟩
        · unfold processFiles
          rw [hpf]
          exact hrun
        · rw [hmut, hM]
          have hfs : (thumbPathOf root f ∈ st.fs) = (thumbPathOf root f ∈ fs0) :=
            propext (h3 f (List.mem_cons_self _ _))
          simp [fileActs, hex0f, hldf, hfs, List.append_assoc]


/-- Function-level form of `fileActsV_true`. -/
theorem fileActsV_true_fun (g : Bool) (root : List String) (db0 : RDB)
    (fs0 : List (List String)) :
    fileActsV true g root db0 fs0 = fileActs g root db0 fs0 :=
  funext (fileActsV_true g root db0 fs0)

/-- A dry `ensure_import_board` changes nothing but possibly the report
list. -/
theorem ensure_import_board_dry (cfg : Config) (bn nid : String) (st : RunState)
    (hd : cfg.dry = true) :
    ((ensure_import_board cfg bn nid st).2).db = st.db
    ∧ ((ensure_import_board cfg bn nid st).2).fs = st.fs
    ∧ ((ensure_import_board cfg bn nid st).2).mutated = st.mutated := by
  unfold ensure_import_board
  cases st.db.boards.find? (fun b => decide (b.2 = bn)) with
  | some b => exact ⟨rfl, rfl, rfl⟩
  | none =>
    dsimp only
    rw [if_pos hd]
    exact ⟨rfl, rfl, rfl⟩

/-- C3 (amended): a dry run mutates neither the catalog nor the
filesystem, whatever the flags; and a VERBOSE dry run announces exactly
the mutations the real run over the same initial state performs —
provided the files have distinct names and distinct thumbnail paths,
none of their per-file operations fails, and no membership row already
links the run's board to a not-yet-cataloged name.  (As stated the
claim is false: without `--verbose` the dry run does not report board
creation, links or thumbnails, see the counterexample.) -/
theorem dry_run_correct :
    (∀ (v g : Bool) (root : List String) (bn nid : String) (files : List PngFile)
        (db0 : RDB) (fs0 : List (List String)),
      ∃ stD, runReconcile ⟨true, v, g⟩ root bn nid files db0 fs0 = Except.ok stD
        ∧ stD.db = db0 ∧ stD.fs = fs0 ∧ stD.mutated = [])
    ∧ (∀ (g : Bool) (root : List String) (bn nid : String) (files : List PngFile)
        (db0 : RDB) (fs0 : List (List String)),
      (files.map imageNameOf).Nodup →
      (files.map (thumbPathOf root)).Nodup →
      (∀ f ∈ files, f.insertFails = false ∧ f.linkFails = false ∧ f.thumbFails = false) →
      (∀ f ∈ files, image_exists db0 (imageNameOf f) = false →
          (effBid db0 bn nid, imageNameOf f) ∉ db0.board_images) →
      ∃ stD stR,
        runReconcile ⟨true, true, g⟩ root bn nid files db0 fs0 = Except.ok stD
        ∧ runReconcile ⟨false, true, g⟩ root bn nid files db0 fs0 = Except.ok stR
        ∧ stD.reported = stR.mutated) := by
  constructor
  · intro v g root bn nid files db0 fs0
    unfold runReconcile
    dsimp only
    rw [processFiles_dry]
    obtain ⟨hdb, hfs, hmut⟩ :=
      ensure_import_board_dry ⟨true, v, g⟩ bn nid ⟨db0, fs0, [], []⟩ rfl
    exact ⟨_, rfl, hdb, hfs, hmut⟩
  · intro g root bn nid files db0 fs0 hn ht hfl hb
    unfold runReconcile
    dsimp only
    cases hf : db0.boards.find? (fun b => decide (b.2 = bn)) with
    | some b =>
      have hbid : effBid db0 bn nid = b.1 := by unfold effBid; rw [hf]
      have hD : ensure_import_board ⟨true, true, g⟩ bn nid ⟨db0, fs0, [], []⟩
          = (b.1, ⟨db0, fs0, [], []⟩) := by
        unfold ensure_import_board
        rw [hf]
      have hR : ensure_import_board ⟨false, true, g⟩ bn nid ⟨db0, fs0, [], []⟩
          = (b.1, ⟨db0, fs0, [], []⟩) := by
        unfold ensure_import_board
        rw [hf]
      rw [hD, hR]
      dsimp only
      rw [processFiles_dry]
      obtain ⟨stR, hrun, hmut⟩ :=
        processFiles_real g true root b.1 db0 fs0 files ⟨db0, fs0, [], []⟩ hn ht hfl
          (fun q hq => rfl) (fun q hq => Iff.rfl) (fun q hq => Iff.rfl)
          (fun q hq hexq => by
            have hx := hb q hq hexq
            rwa [hbid] at hx)
      refine ⟨_, stR, rfl, hrun, ?_⟩
      rw [hmut]
      dsimp only
      simp [fileActsV_true_fun]
    | none =>
      have hbid : effBid db0 bn nid = nid := by unfold effBid; rw [hf]
      have hD : ensure_import_board ⟨true, true, g⟩ bn nid ⟨db0, fs0, [], []⟩
          = (nid, { db := db0, fs := fs0, reported := [Act.createBoard bn],
                    mutated := [] }) := by
        unfold ensure_import_board
        rw [hf]
        simp
      have hR : ensure_import_board ⟨false, true, g⟩ bn nid ⟨db0, fs0, [], []⟩
          = (nid, { db := { images := db0.images, boards := db0.boards ++ [(nid, bn)],
                            board_images := db0.board_images },
                    fs := fs0, reported := [], mutated := [Act.createBoard bn] }) := by
        unfold ensure_import_board
        rw [hf]
        simp
      rw [hD, hR]
      dsimp only
      rw [processFiles_dry]
      obtain ⟨stR, hrun, hmut⟩ :=
        processFiles_real g true root nid db0 fs0 files
          ⟨⟨db0.images, db0.boards ++ [(nid, bn)], db0.board_images⟩, fs0, [],
            [Act.createBoard bn]⟩ hn ht hfl
          (fun q hq => rfl) (fun q hq => Iff.rfl) (fun q hq => Iff.rfl)
          (fun q hq hexq => by
            have hx := hb q hq hexq
            rwa [hbid] at hx)
      refine ⟨_, stR, rfl, hrun, ?_⟩
      rw [hmut]
      dsimp only
      simp [fileActsV_true_fun]

theorem dry_run_correct_witness :
    ∃ stD stR,
      runReconcile ⟨true, true, true⟩ ["out"] "Recovered 02-01-24" "B1" [fX, fY] dbEmpty []
        = Except.ok stD
      ∧ runReconcile ⟨false, true, true⟩ ["out"] "Recovered 02-01-24" "B1" [fX, fY] dbEmpty []
        = Except.ok stR
      ∧ stD.reported = stR.mutated :=
  dry_run_correct.2 true ["out"] "Recovered 02-01-24" "B1" [fX, fY] dbEmpty []
    (by decide) (by decide) (by decide) (by decide)
